import Mathlib

/-!
Verification of the netlink attribute TLV codec and the generic-netlink
family-resolution controller of this repository (libnl/attr.py and
libnl/genl/ctrl.py), as a shallow embedding in Lean.

Streams are Python lists of attribute objects in this port (not raw byte
buffers): `nla_put` appends `nlattr` instances to the message payload list and
`nla_for_each_attr` iterates such a list.  Machine integers are embedded as
`Nat` with explicit `% 2 ^ w` where the `ctypes` fixed-width constructors
truncate.  Python exceptions are embedded with `Except PyError`.

Modules of the repository that are imported by the two source files but whose
code is not available (libnl.linux_private.netlink, libnl.linux_private.genetlink,
libnl.errno_, libnl.handlers, libnl.genl.family, libnl.genl.genl) are modelled
from the spec, each with a doc comment saying so.
-/

set_option autoImplicit false

namespace Libnl

/-- Modelled from the spec: `NLA_HDRLEN` (libnl.linux_private.netlink is absent
from the source tree).  An attribute header is a 16-bit total length plus a
16-bit type field, hence 4 bytes (spec section 3 / section 6). -/
def NLA_HDRLEN : Nat := 4

/-- Modelled from the spec: `NLA_ALIGN` (libnl.linux_private.netlink is absent)
rounds a length up to the next 4-byte boundary (spec section 3). -/
def NLA_ALIGN (len : Nat) : Nat := (len + 3) / 4 * 4

/-- Modelled from the spec: `NLA_TYPE_MASK` (libnl.linux_private.netlink is
absent) masks off the two high flag bits of the 16-bit type field, leaving the
14-bit type code (spec section 3 / section 6). -/
def NLA_TYPE_MASK : Nat := 0x3fff

/-- Modelled from the spec: `NLE_RANGE` from libnl.errno_ (absent): the
distinct numeric code of the RangeError result. -/
def NLE_RANGE : Nat := 34

/-- Modelled from the spec: `NLE_INVAL` from libnl.errno_ (absent): the
distinct numeric code of the InvalidError result. -/
def NLE_INVAL : Nat := 7

/-- Modelled from the spec: `NLE_OBJ_NOTFOUND` from libnl.errno_ (absent): the
distinct numeric code of the ObjectNotFoundError result. -/
def NLE_OBJ_NOTFOUND : Nat := 12

/-- Modelled from the spec: `NL_SKIP` from libnl.handlers (absent): the
callback return code meaning "skip this message and keep receiving". -/
def NL_SKIP : Nat := 1

/-- Modelled from the spec: `NL_STOP` from libnl.handlers (absent): the
callback return code meaning "stop the receive loop". -/
def NL_STOP : Nat := 2

/-- attr.py line 19: unspecified type, binary data chunk. -/
def NLA_UNSPEC : Nat := 0

/-- attr.py line 20: 8 bit integer. -/
def NLA_U8 : Nat := 1

/-- attr.py line 21: 16 bit integer. -/
def NLA_U16 : Nat := 2

/-- attr.py line 22: 32 bit integer. -/
def NLA_U32 : Nat := 3

/-- attr.py line 23: 64 bit integer. -/
def NLA_U64 : Nat := 4

/-- attr.py line 24: NUL terminated character string. -/
def NLA_STRING : Nat := 5

/-- attr.py line 25: flag. -/
def NLA_FLAG : Nat := 6

/-- attr.py line 26: micro seconds (64bit). -/
def NLA_MSECS : Nat := 7

/-- attr.py line 27: nested attributes. -/
def NLA_NESTED : Nat := 8

/-- attr.py line 28. -/
def NLA_TYPE_MAX : Nat := NLA_NESTED

/-- A Python exception escaping one of the embedded functions. -/
inductive PyError where
  | keyError
  | bug
  | typeError
  | valueError
  | indexError
  | notImplementedError
deriving DecidableEq, Repr

/-- The payload attached to an `nlattr` in this port: either raw bytes, a
`ctypes` fixed-width unsigned integer object (`c_uint8/16/32/64`, width in
bits), or Python `None` (used for flag attributes). -/
inductive Payload where
  | raw (data : List Nat)
  | cuint (width : Nat) (value : Nat)
  | pynone
deriving DecidableEq, Repr

/-- Byte size of a payload as stored: raw bytes count themselves, a fixed-width
integer occupies width/8 bytes, `None` is empty. -/
def payloadSize : Payload → Nat
  | .raw data => data.length
  | .cuint w _ => w / 8
  | .pynone => 0

/-- The attribute record object (class `nlattr` of libnl.linux_private.netlink,
absent from the source tree; its fields are modelled from the spec, section 3):
a declared 16-bit total length, a 16-bit type field with flag bits, and the
payload. -/
structure nlattr where
  nla_len : Nat
  nla_type : Nat
  payload : Payload
deriving DecidableEq, Repr

/-- An element of the Python list handed to `nla_for_each_attr`: either an
`nlattr` instance or some other object (skipped by the isinstance filter). -/
inductive StreamItem where
  | attr (a : nlattr)
  | other
deriving DecidableEq, Repr

/-- attr.py lines 55-65 `nla_type`: mask the type field with `NLA_TYPE_MASK`. -/
def nla_type (nla : nlattr) : Nat := nla.nla_type &&& NLA_TYPE_MASK

/-- attr.py lines 68-78 `nla_data`: return the payload section. -/
def nla_data (nla : nlattr) : Payload := nla.payload

/-- attr.py lines 81-91 `nla_len`: `int(nla.nla_len - NLA_HDRLEN)`, an ordinary
(possibly negative) Python integer. -/
def nla_len (nla : nlattr) : Int := (nla.nla_len : Int) - (NLA_HDRLEN : Int)

/-- attr.py lines 94-109 `nla_ok`:
`remaining >= sizeof(*nla) and sizeof(*nla) <= nla.nla_len <= remaining`,
where `sizeof(*nla)` is the attribute header size (the `nlattr` class is
absent from the source tree; its size is modelled from the spec as
`NLA_HDRLEN`). -/
def nla_ok (nla : nlattr) (remaining : Int) : Bool :=
  decide ((NLA_HDRLEN : Int) ≤ remaining) &&
    (decide ((NLA_HDRLEN : Int) ≤ (nla.nla_len : Int)) &&
      decide ((nla.nla_len : Int) ≤ remaining))

/-- attr.py lines 112-128 `nla_next`: the new value of `remaining` after
advancing past `nla` by its 4-byte-aligned declared total length. -/
def nla_next_remaining (nla : nlattr) (remaining : Int) : Int :=
  remaining - (NLA_ALIGN nla.nla_len : Nat)

/-- attr.py lines 217-227 `nla_for_each_attr`:
`(a for a in head if isinstance(a, nlattr))` — every `nlattr` element of the
list, in order, with no other check. -/
def nla_for_each_attr (head : List StreamItem) : List nlattr :=
  head.filterMap fun i =>
    match i with
    | .attr a => some a
    | .other => none

/-- Modelled from the spec: `iterate(stream)` of spec section 4.1 — the
ok/next-gated iteration the spec describes: yield records while `ok` holds for
the bytes remaining, decrementing the budget by the aligned record length as
`next` does, and stop silently at the first `ok` failure.  Stated here to be
compared with the source's `nla_for_each_attr`. -/
def iterate_spec : List nlattr → Int → List nlattr
  | [], _ => []
  | a :: rest, remaining =>
    if nla_ok a remaining then a :: iterate_spec rest (nla_next_remaining a remaining)
    else []

/-- attr.py lines 131-139 `nla_attr_minlen`: the per-type default minimum
payload length (all of 0..NLA_TYPE_MAX default to 0, then u8:1, u16:2, u32:4,
u64:8, string:1, flag:0 are set explicitly). -/
def nla_attr_minlen (t : Nat) : Nat :=
  if t = NLA_U8 then 1
  else if t = NLA_U16 then 2
  else if t = NLA_U32 then 4
  else if t = NLA_U64 then 8
  else if t = NLA_STRING then 1
  else 0

/-- attr.py lines 31-52 class `nla_policy`: attribute validation policy with
declared type, minimal and maximal payload length (0 meaning unset). -/
structure nla_policy where
  type_ : Nat
  minlen : Nat
  maxlen : Nat
deriving DecidableEq, Repr

/-- Lookup in a Python dict embedded as an association list. -/
def dictLookup {α : Type} : List (Nat × α) → Nat → Option α
  | [], _ => none
  | (k, v) :: rest, key => if k = key then some v else dictLookup rest key

/-- `key in dict` for a Python dict embedded as an association list. -/
def dictMem {α : Type} (d : List (Nat × α)) (key : Nat) : Bool :=
  (dictLookup d key).isSome

/-- `dict[key] = value` for a Python dict embedded as an association list:
replace the binding in place if the key is present, else append it. -/
def dictInsert {α : Type} : List (Nat × α) → Nat → α → List (Nat × α)
  | [], key, v => [(key, v)]
  | (k, w) :: rest, key, v =>
    if k = key then (key, v) :: rest else (k, w) :: dictInsert rest key v

/-- The attribute table `tb` filled by `nla_parse` (a Python dict keyed by
attribute type). -/
abbrev AttrDict := List (Nat × nlattr)

/-- A policy table (a Python dict keyed by attribute type). -/
abbrev PolicyDict := List (Nat × nla_policy)

/-- Python bytes indexing `data[i]`: a negative index counts from the end, an
index out of range raises IndexError. -/
def pyBytesIndex (data : List Nat) (i : Int) : Except PyError Nat :=
  if 0 ≤ i then
    if i < (data.length : Int) then .ok (data.getD i.toNat 0) else .error .indexError
  else
    if 0 ≤ (data.length : Int) + i then .ok (data.getD ((data.length : Int) + i).toNat 0)
    else .error .indexError

/-- The effective minimum payload length computed by `validate_nla`
(attr.py lines 153-165): the policy's explicit `minlen` if nonzero, else the
per-type default for a non-UNSPEC declared type, else zero. -/
def nla_effective_minlen (pt : nla_policy) : Nat :=
  if pt.minlen ≠ 0 then pt.minlen
  else if pt.type_ ≠ NLA_UNSPEC then nla_attr_minlen pt.type_
  else 0

/-- attr.py lines 142-178 `validate_nla`: success for a type beyond `maxtype`;
`policy[type_]` raises KeyError when the dict has no entry; a policy whose own
declared type exceeds `NLA_TYPE_MAX` raises BUG; then the length checks against
the effective minimum and an explicit nonzero maximum return `-NLE_RANGE`, and
a string-typed policy additionally requires the byte `data[nla_len - 1]` to be
NUL, returning `-NLE_INVAL` otherwise (indexing a non-bytes payload raises
TypeError). -/
def validate_nla (nla : nlattr) (maxtype : Nat) (policy : PolicyDict) :
    Except PyError Int :=
  if nla_type nla > maxtype then .ok 0
  else
    match dictLookup policy (nla_type nla) with
    | none => .error .keyError
    | some pt =>
      if pt.type_ > NLA_TYPE_MAX then .error .bug
      else if nla_len nla < (nla_effective_minlen pt : Int) then .ok (-(NLE_RANGE : Int))
      else if pt.maxlen ≠ 0 ∧ (pt.maxlen : Int) < nla_len nla then .ok (-(NLE_RANGE : Int))
      else if pt.type_ = NLA_STRING then
        match nla_data nla with
        | .raw data =>
          match pyBytesIndex data (nla_len nla - 1) with
          | .error e => .error e
          | .ok b => if b ≠ 0 then .ok (-(NLE_INVAL : Int)) else .ok 0
        | _ => .error .typeError
      else .ok 0

/-- The validation step of the `nla_parse` loop (attr.py lines 204-207):
skipped when `policy` is falsy — Python `if policy:` is false for `None` and
for an empty dict — else the record is checked with `validate_nla`. -/
def parse_policy_check (policy : Option PolicyDict) (nla : nlattr) (maxtype : Nat) :
    Except PyError Int :=
  match policy with
  | some p => if p.isEmpty then Except.ok 0 else validate_nla nla maxtype p
  | none => Except.ok 0

/-- The loop body of `nla_parse` (attr.py lines 199-214), recursing over the
records yielded by `nla_for_each_attr`: skip a record whose type exceeds
`maxtype`; when the `policy` dict is truthy (present and nonempty), validate
the record and return the first negative error with the table as mutated so
far; otherwise record a discard event for a duplicate type and store the record
(last write wins).  The result is the returned error code, the final `tb` dict,
and the list of discard-diagnostic events (the attribute types logged at
attr.py lines 209-211). -/
def nla_parse_go (tb : AttrDict) (maxtype : Nat) (policy : Option PolicyDict) :
    List nlattr → List Nat → Except PyError (Int × AttrDict × List Nat)
  | [], events => .ok (0, tb, events)
  | nla :: rest, events =>
    if nla_type nla > maxtype then nla_parse_go tb maxtype policy rest events
    else
      match parse_policy_check policy nla maxtype with
      | .error e => .error e
      | .ok err =>
        if err < 0 then .ok (err, tb, events)
        else
          nla_parse_go (dictInsert tb (nla_type nla) nla) maxtype policy rest
            (if dictMem tb (nla_type nla) then events ++ [nla_type nla] else events)

/-- attr.py lines 181-214 `nla_parse`: iterate `nla_for_each_attr(head)` and
build the attribute table. -/
def nla_parse (tb : AttrDict) (maxtype : Nat) (head : List StreamItem)
    (policy : Option PolicyDict) : Except PyError (Int × AttrDict × List Nat) :=
  nla_parse_go tb maxtype policy (nla_for_each_attr head) []

/-- attr.py lines 250-273 `nla_put`: append `nlattr(nla_type=attrtype,
payload=data)` to the message's payload list (the message is embedded as that
list).  The `nlattr` constructor's declared length is modelled from the spec,
section 3: the total length covers header plus payload. -/
def nla_put (msg : List nlattr) (attrtype : Nat) (data : Payload) : List nlattr :=
  msg ++ [⟨NLA_HDRLEN + payloadSize data, attrtype, data⟩]

/-- attr.py lines 276-288 `nla_put_u8`: store the value as a `c_uint8` object
(truncating to 8 bits as the ctypes constructor does). -/
def nla_put_u8 (msg : List nlattr) (attrtype : Nat) (value : Nat) : List nlattr :=
  nla_put msg attrtype (.cuint 8 (value % 2 ^ 8))

/-- attr.py lines 291-305 `nla_get_u8`: a `c_uint8` payload yields its value;
any other fixed-width integer payload goes through `c_uint8.from_buffer`,
reading the low byte when the buffer is wide enough and raising otherwise; a
bytes or `None` payload raises TypeError. -/
def nla_get_u8 (nla : nlattr) : Except PyError Nat :=
  match nla.payload with
  | .cuint w v => if w = 8 then .ok v else if 8 ≤ w then .ok (v % 2 ^ 8) else .error .valueError
  | _ => .error .typeError

/-- attr.py lines 308-320 `nla_put_u16`: store the value as a `c_uint16`. -/
def nla_put_u16 (msg : List nlattr) (attrtype : Nat) (value : Nat) : List nlattr :=
  nla_put msg attrtype (.cuint 16 (value % 2 ^ 16))

/-- attr.py lines 323-337 `nla_get_u16`, mirroring `nla_get_u8` at width 16. -/
def nla_get_u16 (nla : nlattr) : Except PyError Nat :=
  match nla.payload with
  | .cuint w v => if w = 16 then .ok v else if 16 ≤ w then .ok (v % 2 ^ 16) else .error .valueError
  | _ => .error .typeError

/-- attr.py lines 340-352 `nla_put_u32`: store the value as a `c_uint32`. -/
def nla_put_u32 (msg : List nlattr) (attrtype : Nat) (value : Nat) : List nlattr :=
  nla_put msg attrtype (.cuint 32 (value % 2 ^ 32))

/-- attr.py lines 355-366 `nla_get_u32`, mirroring `nla_get_u8` at width 32. -/
def nla_get_u32 (nla : nlattr) : Except PyError Nat :=
  match nla.payload with
  | .cuint w v => if w = 32 then .ok v else if 32 ≤ w then .ok (v % 2 ^ 32) else .error .valueError
  | _ => .error .typeError

/-- attr.py lines 369-381 `nla_put_u64`: store the value as a `c_uint64`. -/
def nla_put_u64 (msg : List nlattr) (attrtype : Nat) (value : Nat) : List nlattr :=
  nla_put msg attrtype (.cuint 64 (value % 2 ^ 64))

/-- attr.py lines 384-395 `nla_get_u64`, mirroring `nla_get_u8` at width 64. -/
def nla_get_u64 (nla : nlattr) : Except PyError Nat :=
  match nla.payload with
  | .cuint w v => if w = 64 then .ok v else if 64 ≤ w then .ok (v % 2 ^ 64) else .error .valueError
  | _ => .error .typeError

/-- `bytes.endswith(b'\x00')` on a byte string embedded as a list. -/
def endswithNul (l : List Nat) : Bool := l.getLast? == some 0

/-- `bytes.rstrip(b'\x00')`: drop all trailing NUL bytes. -/
def rstripZero (l : List Nat) : List Nat :=
  (l.reverse.dropWhile fun b => b == 0).reverse

/-- attr.py lines 398-410 `nla_put_string`:
`value if value.endswith(b'\0') else value + b'\0'` becomes the payload. -/
def nla_put_string (msg : List nlattr) (attrtype : Nat) (value : List Nat) :
    List nlattr :=
  nla_put msg attrtype (.raw (if endswithNul value then value else value ++ [0]))

/-- attr.py lines 413-420 `nla_get_string`: `nla.payload.rstrip(b'\0')`
(a non-bytes payload has no rstrip and raises). -/
def nla_get_string (nla : nlattr) : Except PyError (List Nat) :=
  match nla.payload with
  | .raw data => .ok (rstripZero data)
  | _ => .error .typeError

/-- Modelled from the spec: `GENL_NAMSIZ` from libnl.linux_private.genetlink
(absent): the fixed family-name size bound used as `maxlen` of the
FAMILY_NAME policy. -/
def GENL_NAMSIZ : Nat := 16

/-- Modelled from the spec: `CTRL_ATTR_FAMILY_ID` from
libnl.linux_private.genetlink (absent): the control-attribute id of the
numeric family id. -/
def CTRL_ATTR_FAMILY_ID : Nat := 1

/-- Modelled from the spec: `CTRL_ATTR_FAMILY_NAME` (same module). -/
def CTRL_ATTR_FAMILY_NAME : Nat := 2

/-- Modelled from the spec: `CTRL_ATTR_VERSION` (same module). -/
def CTRL_ATTR_VERSION : Nat := 3

/-- Modelled from the spec: `CTRL_ATTR_HDRSIZE` (same module). -/
def CTRL_ATTR_HDRSIZE : Nat := 4

/-- Modelled from the spec: `CTRL_ATTR_MAXATTR` (same module). -/
def CTRL_ATTR_MAXATTR : Nat := 5

/-- Modelled from the spec: `CTRL_ATTR_OPS` (same module). -/
def CTRL_ATTR_OPS : Nat := 6

/-- Modelled from the spec: `CTRL_ATTR_MCAST_GROUPS` (same module). -/
def CTRL_ATTR_MCAST_GROUPS : Nat := 7

/-- Modelled from the spec: `CTRL_ATTR_MAX` (same module): the maximum
control-attribute id. -/
def CTRL_ATTR_MAX : Nat := 7

/-- ctrl.py lines 32-40 `ctrl_policy`: the control-attribute validation
policy dict (the `nla_policy` constructor defaults `minlen` and `maxlen`
to 0). -/
def ctrl_policy : PolicyDict :=
  [(CTRL_ATTR_FAMILY_ID, ⟨NLA_U16, 0, 0⟩),
   (CTRL_ATTR_FAMILY_NAME, ⟨NLA_STRING, 0, GENL_NAMSIZ⟩),
   (CTRL_ATTR_VERSION, ⟨NLA_U32, 0, 0⟩),
   (CTRL_ATTR_HDRSIZE, ⟨NLA_U32, 0, 0⟩),
   (CTRL_ATTR_MAXATTR, ⟨NLA_U32, 0, 0⟩),
   (CTRL_ATTR_OPS, ⟨NLA_NESTED, 0, 0⟩),
   (CTRL_ATTR_MCAST_GROUPS, ⟨NLA_NESTED, 0, 0⟩)]

/-- Modelled from the spec: the family descriptor (class `genl_family` of
libnl.genl.family, absent): a name and a numeric id, 0 meaning unresolved
(spec section 3). -/
structure genl_family where
  name : List Nat
  id : Nat
deriving DecidableEq, Repr

/-- Modelled from the spec: `genl_family_set_id` (libnl.genl.family, absent)
stores the numeric id in the descriptor. -/
def genl_family_set_id (fam : genl_family) (id : Nat) : genl_family :=
  ⟨fam.name, id⟩

/-- Modelled from the spec: `genl_family_get_id` (libnl.genl.family, absent)
reads the numeric id back. -/
def genl_family_get_id (fam : genl_family) : Nat := fam.id

/-- Modelled from the spec: `genlmsg_parse` (libnl.genl.genl, absent) parses a
message's attribute stream into a fresh table via `nla_parse` bounded by
`maxtype` with the supplied policy, returning 0 on success or the first
negative error (spec sections 4.2 and 4.3). -/
def genlmsg_parse (stream : List StreamItem) (maxtype : Nat) (policy : PolicyDict) :
    Except PyError (Int × AttrDict × List Nat) :=
  nla_parse [] maxtype stream (some policy)

/-- Python dict subscription `tb[key]`: KeyError when the key is absent. -/
def pyDictGet (d : AttrDict) (key : Nat) : Except PyError nlattr :=
  match dictLookup d key with
  | some v => .ok v
  | none => .error .keyError

/-- Truthiness of an `nlattr` instance: a plain Python object with neither
`__bool__` nor `__len__` is always truthy (the class is modelled from the
spec). -/
def nlattrTruthy (_ : nlattr) : Bool := true

/-- ctrl.py lines 83-104 `probe_response`, on the attribute stream of the
received message: `tb = dict()`; return `NL_SKIP` when `genlmsg_parse` reports
an error; then `tb[CTRL_ATTR_FAMILY_ID]` (KeyError when absent), storing the
decoded u16 id into the descriptor when truthy; then
`tb[CTRL_ATTR_MCAST_GROUPS]` (KeyError when absent), whose truthiness triggers
`parse_mcast_grps`, which is `raise NotImplementedError` (ctrl.py lines
56-66); finally `NL_STOP`. -/
def probe_response (stream : List StreamItem) (arg : genl_family) :
    Except PyError (Nat × genl_family) := do
  let r ← genlmsg_parse stream CTRL_ATTR_MAX ctrl_policy
  if r.1 ≠ 0 then return (NL_SKIP, arg)
  let tb := r.2.1
  let fam_attr ← pyDictGet tb CTRL_ATTR_FAMILY_ID
  let arg ←
    if nlattrTruthy fam_attr then do
      let fid ← nla_get_u16 fam_attr
      pure (genl_family_set_id arg fid)
    else pure arg
  let mcast ← pyDictGet tb CTRL_ATTR_MCAST_GROUPS
  if nlattrTruthy mcast then throw .notImplementedError
  return (NL_STOP, arg)

/-- ctrl.py lines 146-164 `genl_ctrl_resolve`, as a function of the outcome of
`genl_ctrl_probe_by_name` (the probe itself drives an external transport):
`None` maps to `-NLE_OBJ_NOTFOUND`, a descriptor to its numeric id. -/
def genl_ctrl_resolve_outcome (probe : Option genl_family) : Int :=
  match probe with
  | none => -(NLE_OBJ_NOTFOUND : Int)
  | some fam => (genl_family_get_id fam : Int)

/-! ## Helper lemmas -/

/-- The last element of a nonempty list, through `getD`. -/
theorem getLast?_eq_getD (l : List Nat) (h : l ≠ []) :
    l.getLast? = some (l.getD (l.length - 1) 0) := by
  induction l with
  | nil => cases h rfl
  | cons a t ih =>
    cases t with
    | nil => rfl
    | cons b u =>
      rw [List.getLast?_cons_cons, ih (by simp)]
      have hlen : (a :: b :: u).length - 1 = ((b :: u).length - 1) + 1 := by simp
      rw [hlen, List.getD_cons_succ]

/-- `getLast?` of a cons, phrased with `Option.or`. -/
theorem getLast?_cons_or {α : Type} (a : α) (l : List α) :
    (a :: l).getLast? = l.getLast?.or (some a) := by
  induction l generalizing a with
  | nil => rfl
  | cons b u ih =>
    rw [List.getLast?_cons_cons, ih b]
    cases h : u.getLast? <;> simp [Option.or]

/-- Appending a NUL byte does not change the NUL-stripped value. -/
theorem rstripZero_concat_zero (s : List Nat) : rstripZero (s ++ [0]) = rstripZero s := by
  simp [rstripZero, List.dropWhile_cons]

/-- Looking up the key just inserted. -/
theorem dictLookup_insert_self {α : Type} (d : List (Nat × α)) (k : Nat) (v : α) :
    dictLookup (dictInsert d k v) k = some v := by
  induction d with
  | nil => simp [dictInsert, dictLookup]
  | cons p rest ih =>
    obtain ⟨k1, v1⟩ := p
    by_cases h : k1 = k
    · simp [dictInsert, h, dictLookup]
    · simp [dictInsert, h, dictLookup, ih]

/-- Looking up a different key after an insertion. -/
theorem dictLookup_insert_ne {α : Type} (d : List (Nat × α)) (k k2 : Nat) (v : α)
    (h : k ≠ k2) : dictLookup (dictInsert d k v) k2 = dictLookup d k2 := by
  induction d with
  | nil => simp [dictInsert, dictLookup, h]
  | cons p rest ih =>
    obtain ⟨k1, v1⟩ := p
    by_cases h1 : k1 = k
    · subst h1
      simp [dictInsert, dictLookup, h]
    · by_cases h2 : k1 = k2
      · subst h2
        simp [dictInsert, h1, dictLookup]
      · simp [dictInsert, h1, dictLookup, h2, ih]

/-- `validate_nla` after the in-scope type check and the policy lookup. -/
theorem validate_nla_unfold (nla : nlattr) (maxtype : Nat) (policy : PolicyDict)
    (pt : nla_policy) (hmax : nla_type nla ≤ maxtype)
    (hpt : dictLookup policy (nla_type nla) = some pt)
    (hwf : pt.type_ ≤ NLA_TYPE_MAX) :
    validate_nla nla maxtype policy =
      if nla_len nla < (nla_effective_minlen pt : Int) then .ok (-(NLE_RANGE : Int))
      else if pt.maxlen ≠ 0 ∧ (pt.maxlen : Int) < nla_len nla then .ok (-(NLE_RANGE : Int))
      else if pt.type_ = NLA_STRING then
        (match nla_data nla with
         | .raw data =>
           (match pyBytesIndex data (nla_len nla - 1) with
            | .error e => .error e
            | .ok b => if b ≠ 0 then .ok (-(NLE_INVAL : Int)) else .ok 0)
         | _ => .error .typeError)
      else .ok 0 := by
  unfold validate_nla
  rw [if_neg (by omega)]
  simp only [hpt]
  rw [if_neg (by omega)]

/-- Nonempty lists have a last element. -/
theorem getLast?_isSome_of_ne_nil {α : Type} (l : List α) (h : l ≠ []) :
    ∃ x, l.getLast? = some x := by
  induction l with
  | nil => cases h rfl
  | cons a u ih =>
    cases u with
    | nil => exact ⟨a, rfl⟩
    | cons b v =>
      obtain ⟨x, hx⟩ := ih (by simp)
      exact ⟨x, by rw [List.getLast?_cons_cons]; exact hx⟩

/-- The state invariant of the `nla_parse` loop when no policy is supplied:
the run succeeds with error code 0; the final table maps `t` (a type within
`maxtype`) to the last record of type `t`, falling back to the initial table;
and the discard events for `t` count one per stored record of type `t` that
found the key already present. -/
theorem nla_parse_go_none_invariant (maxtype t : Nat) (ht : t ≤ maxtype)
    (attrs : List nlattr) :
    ∀ (tb : AttrDict) (ev : List Nat),
      ∃ tb2 ev2,
        nla_parse_go tb maxtype none attrs ev = .ok (0, tb2, ev2) ∧
        dictLookup tb2 t =
          ((attrs.filter fun a => nla_type a == t).getLast?).or (dictLookup tb t) ∧
        ev2.count t =
          ev.count t +
            (if dictMem tb t then (attrs.filter fun a => nla_type a == t).length
             else (attrs.filter fun a => nla_type a == t).length - 1) := by
  induction attrs with
  | nil =>
    intro tb ev
    refine ⟨tb, ev, by simp [nla_parse_go], by simp [Option.or], ?_⟩
    cases hm : dictMem tb t <;> simp
  | cons nla rest ih =>
    intro tb ev
    by_cases h1 : nla_type nla > maxtype
    · have hne : (nla_type nla == t) = false := by
        simp only [beq_eq_false_iff_ne, ne_eq]
        omega
      obtain ⟨tb2, ev2, hrun, hlook, hcount⟩ := ih tb ev
      refine ⟨tb2, ev2, ?_, ?_, ?_⟩
      · simp only [nla_parse_go, if_pos h1]
        exact hrun
      · simpa [List.filter_cons, hne] using hlook
      · simpa [List.filter_cons, hne] using hcount
    · have hstep : nla_parse_go tb maxtype none (nla :: rest) ev =
          nla_parse_go (dictInsert tb (nla_type nla) nla) maxtype none rest
            (if dictMem tb (nla_type nla) then ev ++ [nla_type nla] else ev) := by
        simp [nla_parse_go, parse_policy_check, h1]
      obtain ⟨tb2, ev2, hrun, hlook, hcount⟩ :=
        ih (dictInsert tb (nla_type nla) nla)
          (if dictMem tb (nla_type nla) then ev ++ [nla_type nla] else ev)
      refine ⟨tb2, ev2, by rw [hstep]; exact hrun, ?_, ?_⟩
      · by_cases h2 : nla_type nla = t
        · subst h2
          rw [hlook, dictLookup_insert_self]
          rw [List.filter_cons_of_pos (by simp)]
          rw [getLast?_cons_or]
          generalize ((rest.filter fun a => nla_type a == nla_type nla).getLast?) = o
          cases o <;> simp [Option.or]
        · have hne : (nla_type nla == t) = false := by
            simp only [beq_eq_false_iff_ne, ne_eq]
            exact h2
          rw [hlook, dictLookup_insert_ne _ _ _ _ h2]
          rw [List.filter_cons_of_neg (by simp [hne])]
      · by_cases h2 : nla_type nla = t
        · subst h2
          have hmem : dictMem (dictInsert tb (nla_type nla) nla) (nla_type nla) = true := by
            simp [dictMem, dictLookup_insert_self]
          rw [List.filter_cons_of_pos (by simp), List.length_cons]
          simp only [hmem, if_true] at hcount
          by_cases hm : dictMem tb (nla_type nla)
          · simp only [hm, if_true] at hcount ⊢
            simp [List.count_append] at hcount
            omega
          · simp only [hm, if_false, Bool.false_eq_true] at hcount ⊢
            omega
        · have hne : (nla_type nla == t) = false := by
            simp only [beq_eq_false_iff_ne, ne_eq]
            exact h2
          have hmem : dictMem (dictInsert tb (nla_type nla) nla) t = dictMem tb t := by
            simp [dictMem, dictLookup_insert_ne _ _ _ _ h2]
          rw [List.filter_cons_of_neg (by simp [hne])]
          rw [hmem] at hcount
          by_cases hm : dictMem tb (nla_type nla)
          · simp only [hm, if_true] at hcount
            simpa [List.count_append, List.count_cons, hne] using hcount
          · simp only [hm, if_false, Bool.false_eq_true] at hcount
            exact hcount

/-! ## Claim theorems -/

/-- C4: `nla_ok` returns true if and only if `remaining` is at least the
attribute header size and the record's declared total length lies between the
header size and `remaining`, both bounds inclusive. -/
theorem nla_ok_iff_bounds (nla : nlattr) (remaining : Int) :
    nla_ok nla remaining = true ↔
      ((NLA_HDRLEN : Int) ≤ remaining ∧
        (NLA_HDRLEN : Int) ≤ (nla.nla_len : Int) ∧ (nla.nla_len : Int) ≤ remaining) := by
  simp [nla_ok]

/-- C1 counterexample: a one-record stream with 4 bytes remaining whose record
declares a total length of 8.  `nla_ok` rejects the record and the spec's
ok/next iteration yields nothing, yet `nla_for_each_attr` yields the record —
iteration does not stop before a record whose declared total length exceeds
the bytes remaining. -/
theorem nla_for_each_attr_no_ok_check :
    nla_ok ⟨8, 1, .pynone⟩ 4 = false ∧
    iterate_spec [⟨8, 1, .pynone⟩] 4 = [] ∧
    nla_for_each_attr [.attr ⟨8, 1, .pynone⟩] = [⟨8, 1, .pynone⟩] := by
  refine ⟨by decide, by decide, rfl⟩

/-- C1 (amended): `nla_for_each_attr` yields exactly the `nlattr` elements of
the input list, silently skipping non-attribute items, without any error and
without consulting `nla_ok`/`nla_next` — a record is yielded whether or not
its declared length fits any byte budget. -/
theorem nla_for_each_attr_mem_iff (head : List StreamItem) (a : nlattr) :
    a ∈ nla_for_each_attr head ↔ StreamItem.attr a ∈ head := by
  simp only [nla_for_each_attr, List.mem_filterMap]
  constructor
  · rintro ⟨x, hx, hfx⟩
    cases x with
    | attr b =>
      simp only at hfx
      cases hfx
      exact hx
    | other => simp at hfx
  · intro h
    exact ⟨.attr a, h, rfl⟩

/-- C7 counterexample: for a record declaring total length 0, `nla_len`
returns the negative number -4 and raises nothing — it does not fail with
RangeError. -/
theorem nla_len_returns_negative :
    nla_len ⟨0, 0, .pynone⟩ = -4 ∧ nla_len ⟨0, 0, .pynone⟩ < 0 := by
  refine ⟨by decide, by decide⟩

/-- C7 (amended): `nla_len` returns the declared total length minus the header
size as a plain (possibly negative) integer; when the declared length is below
the header size the result is negative, and no error is raised. -/
theorem nla_len_sub_hdrlen (nla : nlattr) :
    nla_len nla = (nla.nla_len : Int) - (NLA_HDRLEN : Int) ∧
      (nla.nla_len < NLA_HDRLEN → nla_len nla < 0) := by
  refine ⟨rfl, fun h => ?_⟩
  unfold nla_len
  unfold NLA_HDRLEN at h ⊢
  omega

/-- Witness for C7's amended theorem at declared length 2. -/
theorem nla_len_sub_hdrlen_witness : nla_len ⟨2, 3, .pynone⟩ < 0 :=
  (nla_len_sub_hdrlen ⟨2, 3, .pynone⟩).2 (by decide)

/-- C8: for each width w in {8,16,32,64} and every value representable in w
unsigned bits, decoding the record appended by the width-w encoder returns the
value unchanged. -/
theorem nla_put_get_uint_roundtrip (msg : List nlattr) (t v : Nat) :
    (v < 2 ^ 8 → (nla_put_u8 msg t v).getLast?.map nla_get_u8 = some (.ok v)) ∧
    (v < 2 ^ 16 → (nla_put_u16 msg t v).getLast?.map nla_get_u16 = some (.ok v)) ∧
    (v < 2 ^ 32 → (nla_put_u32 msg t v).getLast?.map nla_get_u32 = some (.ok v)) ∧
    (v < 2 ^ 64 → (nla_put_u64 msg t v).getLast?.map nla_get_u64 = some (.ok v)) := by
  refine ⟨fun h => ?_, fun h => ?_, fun h => ?_, fun h => ?_⟩ <;> norm_num at h <;>
    simp [nla_put_u8, nla_put_u16, nla_put_u32, nla_put_u64, nla_put,
      nla_get_u8, nla_get_u16, nla_get_u32, nla_get_u64, List.getLast?_concat] <;>
    omega

/-- Witness for C8 at the value 200 and all four widths. -/
theorem nla_put_get_uint_roundtrip_witness :
    (nla_put_u8 [] 5 200).getLast?.map nla_get_u8 = some (.ok 200) ∧
    (nla_put_u16 [] 5 200).getLast?.map nla_get_u16 = some (.ok 200) ∧
    (nla_put_u32 [] 5 200).getLast?.map nla_get_u32 = some (.ok 200) ∧
    (nla_put_u64 [] 5 200).getLast?.map nla_get_u64 = some (.ok 200) := by
  have h := nla_put_get_uint_roundtrip [] 5 200
  exact ⟨h.1 (by decide), h.2.1 (by decide), h.2.2.1 (by decide), h.2.2.2 (by decide)⟩

/-- C9: decoding the record produced by `nla_put_string` returns the caller's
bytes with all trailing NUL bytes stripped, whether or not they already ended
in NUL; when they do not end in NUL the encoder appends exactly one NUL
terminator; and the stored payload always includes a final NUL terminator. -/
theorem nla_put_get_string_roundtrip (msg : List nlattr) (t : Nat) (s : List Nat) :
    ((nla_put_string msg t s).getLast?.map nla_get_string = some (.ok (rstripZero s))) ∧
    (s.getLast? ≠ some 0 → nla_put_string msg t s = nla_put msg t (.raw (s ++ [0]))) ∧
    (∃ d, nla_put_string msg t s = nla_put msg t (.raw d) ∧ d.getLast? = some 0) := by
  by_cases h : endswithNul s
  · have hlast : s.getLast? = some 0 := by simpa [endswithNul] using h
    refine ⟨?_, fun hne => absurd hlast hne, ⟨s, ?_, hlast⟩⟩
    · simp [nla_put_string, h, nla_put, nla_get_string, List.getLast?_concat]
    · simp [nla_put_string, h]
  · refine ⟨?_, fun _ => ?_, ⟨s ++ [0], ?_, by simp⟩⟩
    · simp [nla_put_string, h, nla_put, nla_get_string, List.getLast?_concat,
        rstripZero_concat_zero]
    · simp [nla_put_string, h]
    · simp [nla_put_string, h]

/-- C5: for a record whose type code is within `maxtype` and the (well-formed)
policy entry looked up for it, `validate_nla` returns RangeError exactly when
the payload length is below the effective minimum — the policy's explicit
`minlen` if nonzero, else the per-type default, else zero — or above an
explicit nonzero `maxlen`; and the per-type defaults are u8:1, u16:2, u32:4,
u64:8, string:1, flag:0 and 0 for all other types. -/
theorem validate_nla_range_iff (nla : nlattr) (maxtype : Nat) (policy : PolicyDict)
    (pt : nla_policy) (hmax : nla_type nla ≤ maxtype)
    (hpt : dictLookup policy (nla_type nla) = some pt)
    (hwf : pt.type_ ≤ NLA_TYPE_MAX) :
    (validate_nla nla maxtype policy = .ok (-(NLE_RANGE : Int)) ↔
      (nla_len nla < (nla_effective_minlen pt : Int) ∨
        (pt.maxlen ≠ 0 ∧ (pt.maxlen : Int) < nla_len nla))) ∧
    nla_attr_minlen NLA_U8 = 1 ∧ nla_attr_minlen NLA_U16 = 2 ∧
    nla_attr_minlen NLA_U32 = 4 ∧ nla_attr_minlen NLA_U64 = 8 ∧
    nla_attr_minlen NLA_STRING = 1 ∧ nla_attr_minlen NLA_FLAG = 0 ∧
    nla_attr_minlen NLA_UNSPEC = 0 ∧ nla_attr_minlen NLA_MSECS = 0 ∧
    nla_attr_minlen NLA_NESTED = 0 := by
  refine ⟨?_, by decide, by decide, by decide, by decide, by decide, by decide,
    by decide, by decide, by decide⟩
  rw [validate_nla_unfold nla maxtype policy pt hmax hpt hwf]
  by_cases h1 : nla_len nla < (nla_effective_minlen pt : Int)
  · simp [h1]
  · rw [if_neg h1]
    by_cases h2 : pt.maxlen ≠ 0 ∧ (pt.maxlen : Int) < nla_len nla
    · simp [h1, h2]
    · rw [if_neg h2]
      constructor
      · intro hcon
        exfalso
        split at hcon
        · split at hcon
          · split at hcon
            · exact Except.noConfusion hcon
            · split at hcon
              · injection hcon with h0
                unfold NLE_INVAL NLE_RANGE at h0
                omega
              · injection hcon with h0
                unfold NLE_RANGE at h0
                omega
          · exact Except.noConfusion hcon
        · injection hcon with h0
          unfold NLE_RANGE at h0
          omega
      · rintro (hc | hc)
        · exact absurd hc h1
        · exact absurd hc h2

/-- Witness for C5: the claim's own example — under a U32-typed policy entry a
record with a 2-byte payload fails with RangeError (effective minimum 4). -/
theorem validate_nla_range_iff_witness :
    validate_nla ⟨6, 3, .raw [1, 2]⟩ 3 [(3, ⟨NLA_U32, 0, 0⟩)] =
      .ok (-(NLE_RANGE : Int)) := by
  have h := validate_nla_range_iff ⟨6, 3, .raw [1, 2]⟩ 3 [(3, ⟨NLA_U32, 0, 0⟩)]
    ⟨NLA_U32, 0, 0⟩ (by decide) (by decide) (by decide)
  exact h.1.mpr (by decide)

/-- C6: for a record validated under a string-typed policy entry — its type
within `maxtype`, its byte payload matching the declared length, and its
length within the policy bounds — `validate_nla` fails with InvalidError if
and only if the final byte of the payload is not the NUL byte 0. -/
theorem validate_nla_string_nul_iff (nla : nlattr) (maxtype : Nat)
    (policy : PolicyDict) (pt : nla_policy) (data : List Nat)
    (hmax : nla_type nla ≤ maxtype)
    (hpt : dictLookup policy (nla_type nla) = some pt)
    (hstr : pt.type_ = NLA_STRING)
    (hdata : nla.payload = .raw data)
    (hlen : nla.nla_len = NLA_HDRLEN + data.length)
    (hmin : ¬nla_len nla < (nla_effective_minlen pt : Int))
    (hmaxl : ¬(pt.maxlen ≠ 0 ∧ (pt.maxlen : Int) < nla_len nla)) :
    validate_nla nla maxtype policy = .ok (-(NLE_INVAL : Int)) ↔
      data.getLast? ≠ some 0 := by
  have hwf : pt.type_ ≤ NLA_TYPE_MAX := by rw [hstr]; decide
  have hminlen : 1 ≤ nla_effective_minlen pt := by
    unfold nla_effective_minlen
    by_cases hm : pt.minlen ≠ 0
    · rw [if_pos hm]; omega
    · rw [if_neg hm, if_pos (by rw [hstr]; decide), hstr]
      decide
  have hdlen : 1 ≤ data.length := by
    unfold nla_len at hmin
    rw [hlen] at hmin
    unfold NLA_HDRLEN at hmin
    omega
  have hnl : nla_len nla = (data.length : Int) := by
    unfold nla_len
    rw [hlen]
    unfold NLA_HDRLEN
    push_cast
    omega
  have hidx : pyBytesIndex data (nla_len nla - 1) =
      .ok (data.getD (data.length - 1) 0) := by
    rw [hnl]
    unfold pyBytesIndex
    rw [if_pos (by omega), if_pos (by omega)]
    have htn : ((data.length : Int) - 1).toNat = data.length - 1 := by omega
    rw [htn]
  have hne : data ≠ [] := by
    intro hnil
    subst hnil
    simp at hdlen
  rw [validate_nla_unfold nla maxtype policy pt hmax hpt hwf, if_neg hmin,
    if_neg hmaxl, if_pos hstr]
  simp only [nla_data, hdata]
  simp only [hidx]
  rw [getLast?_eq_getD data hne]
  by_cases hz : data.getD (data.length - 1) 0 ≠ 0
  · rw [if_pos hz]
    constructor
    · intro _ hcon
      exact hz (Option.some.inj hcon)
    · intro _
      rfl
  · rw [if_neg hz]
    push_neg at hz
    constructor
    · intro hcon
      injection hcon with h0
      unfold NLE_INVAL at h0
      omega
    · intro hcon
      exact absurd (by rw [hz]) hcon

/-- Witness for C6: a string-typed record whose 5-byte payload ends in the
non-NUL byte 33 fails with InvalidError. -/
theorem validate_nla_string_nul_iff_witness :
    validate_nla ⟨9, 2, .raw [104, 105, 33, 0, 33]⟩ 2 [(2, ⟨NLA_STRING, 0, 0⟩)] =
      .ok (-(NLE_INVAL : Int)) := by
  have h := validate_nla_string_nul_iff ⟨9, 2, .raw [104, 105, 33, 0, 33]⟩ 2
    [(2, ⟨NLA_STRING, 0, 0⟩)] ⟨NLA_STRING, 0, 0⟩ [104, 105, 33, 0, 33]
    (by decide) (by decide) (by decide) rfl (by decide) (by decide) (by decide)
  exact h.mpr (by decide)

/-- Witness for C9 on the two-byte input [104, 105]. -/
theorem nla_put_get_string_roundtrip_witness :
    nla_put_string [] 2 [104, 105] = nla_put [] 2 (.raw [104, 105, 0]) ∧
    (nla_put_string [] 2 [104, 105]).getLast?.map nla_get_string =
      some (.ok [104, 105]) := by
  have h := nla_put_get_string_roundtrip [] 2 [104, 105]
  have h2 : rstripZero [104, 105] = [104, 105] := by decide
  exact ⟨h.2.1 (by decide), by rw [← h2]; exact h.1⟩

/-- C2 counterexample: a stream whose first record (type 1, one u8 byte)
validates and is stored, and whose second record (type 2, two bytes under a
u32 policy) fails with RangeError.  `nla_parse` returns the error, but the
returned table still holds the first record — it is not left empty. -/
theorem nla_parse_exposes_partial_table :
    nla_parse [] 3 [.attr ⟨5, 1, .raw [7]⟩, .attr ⟨6, 2, .raw [1, 2]⟩]
        (some [(1, ⟨NLA_U8, 0, 0⟩), (2, ⟨NLA_U32, 0, 0⟩)]) =
      .ok (-(NLE_RANGE : Int), [(1, ⟨5, 1, .raw [7]⟩)], []) ∧
    dictLookup [(1, (⟨5, 1, .raw [7]⟩ : nlattr))] 1 = some ⟨5, 1, .raw [7]⟩ ∧
    ([(1, (⟨5, 1, .raw [7]⟩ : nlattr))] : AttrDict) ≠ [] := by
  refine ⟨rfl, rfl, by simp⟩

/-- C2 (amended): when `nla_parse` meets its first validation error it returns
that error immediately — records after the failing one are neither validated
nor stored — but the partially built table is not discarded: the returned
table is exactly the one built from the records preceding the failure. -/
theorem nla_parse_go_stops_at_first_error (maxtype : Nat) (policy : Option PolicyDict)
    (xs ys : List nlattr) (tb : AttrDict) (ev : List Nat) (e : Int)
    (tb2 : AttrDict) (ev2 : List Nat)
    (h : nla_parse_go tb maxtype policy xs ev = .ok (e, tb2, ev2)) (he : e < 0) :
    nla_parse_go tb maxtype policy (xs ++ ys) ev = .ok (e, tb2, ev2) := by
  induction xs generalizing tb ev with
  | nil =>
    simp only [nla_parse_go, Except.ok.injEq, Prod.mk.injEq] at h
    obtain ⟨h1, -⟩ := h
    exact absurd he (by omega)
  | cons nla rest ih =>
    rw [List.cons_append]
    simp only [nla_parse_go] at h ⊢
    by_cases h1 : nla_type nla > maxtype
    · rw [if_pos h1] at h ⊢
      exact ih _ _ h
    · rw [if_neg h1] at h ⊢
      cases hv : parse_policy_check policy nla maxtype with
      | error err =>
        simp only [hv] at h
        exact Except.noConfusion h
      | ok err =>
        simp only [hv] at h ⊢
        by_cases hlt : err < 0
        · rw [if_pos hlt] at h ⊢
          exact h
        · rw [if_neg hlt] at h ⊢
          exact ih _ _ h

/-- Witness for C2's amended theorem: appending a further record after the
failing one leaves the returned error, table and events unchanged. -/
theorem nla_parse_go_stops_at_first_error_witness :
    nla_parse_go [] 3 (some [(2, ⟨NLA_U32, 0, 0⟩)])
        ([⟨6, 2, .raw [1, 2]⟩] ++ [⟨5, 2, .raw [1, 2, 3, 4]⟩]) [] =
      .ok (-(NLE_RANGE : Int), [], []) :=
  nla_parse_go_stops_at_first_error 3 (some [(2, ⟨NLA_U32, 0, 0⟩)])
    [⟨6, 2, .raw [1, 2]⟩] [⟨5, 2, .raw [1, 2, 3, 4]⟩] [] [] (-(NLE_RANGE : Int))
    [] [] rfl (by decide)

/-- C10: for a stream holding two or more records of the same type code `t`
(with `t` within `maxtype`), the table built by `nla_parse` maps `t` to the
last such record in stream order, and one discard event is emitted for every
earlier record of that type that was overwritten. -/
theorem nla_parse_last_write_wins (head : List StreamItem) (maxtype t : Nat)
    (ht : t ≤ maxtype)
    (hdup : 2 ≤ ((nla_for_each_attr head).filter fun a => nla_type a == t).length) :
    ∃ tb ev,
      nla_parse [] maxtype head none = .ok (0, tb, ev) ∧
      dictLookup tb t = ((nla_for_each_attr head).filter fun a => nla_type a == t).getLast? ∧
      ev.count t = ((nla_for_each_attr head).filter fun a => nla_type a == t).length - 1 := by
  obtain ⟨tb2, ev2, hrun, hlook, hcount⟩ :=
    nla_parse_go_none_invariant maxtype t ht (nla_for_each_attr head) [] []
  have hnil : dictLookup ([] : AttrDict) t = none := rfl
  refine ⟨tb2, ev2, hrun, ?_, ?_⟩
  · rw [hlook, hnil]
    have hne : ((nla_for_each_attr head).filter fun a => nla_type a == t) ≠ [] := by
      intro h0
      rw [h0] at hdup
      simp at hdup
    obtain ⟨x, hx⟩ :=
      getLast?_isSome_of_ne_nil ((nla_for_each_attr head).filter fun a => nla_type a == t) hne
    rw [hx]
    rfl
  · have hmem : dictMem ([] : AttrDict) t = false := rfl
    rw [hmem] at hcount
    simpa using hcount

/-- Witness for C10: two records of type 1 under maxtype 1. -/
theorem nla_parse_last_write_wins_witness :
    ∃ tb ev,
      nla_parse [] 1 [.attr ⟨5, 1, .raw [1]⟩, .attr ⟨5, 1, .raw [2]⟩] none =
        .ok (0, tb, ev) ∧
      dictLookup tb 1 =
        ((nla_for_each_attr [.attr ⟨5, 1, .raw [1]⟩, .attr ⟨5, 1, .raw [2]⟩]).filter
          fun a => nla_type a == 1).getLast? ∧
      ev.count 1 =
        ((nla_for_each_attr [.attr ⟨5, 1, .raw [1]⟩, .attr ⟨5, 1, .raw [2]⟩]).filter
          fun a => nla_type a == 1).length - 1 :=
  nla_parse_last_write_wins [.attr ⟨5, 1, .raw [1]⟩, .attr ⟨5, 1, .raw [2]⟩] 1 1
    (by decide) (by decide)

/-- C3 (code bug): a reply whose attribute stream is empty parses successfully
(error code 0, empty table), yet `probe_response` raises KeyError at
`tb[CTRL_ATTR_FAMILY_ID]` instead of returning `NL_SKIP` — `tb = dict()` is
never prepopulated, so the promised exception-free Skip/NotFound path of the
spec (and of the function's own docstring, "Returns: NL_SKIP or NL_STOP")
is violated. -/
theorem probe_response_raises_keyerror :
    genlmsg_parse [] CTRL_ATTR_MAX ctrl_policy = .ok (0, [], []) ∧
    probe_response [] ⟨[110, 108], 0⟩ = .error .keyError :=
  ⟨rfl, rfl⟩

end Libnl
